import Mathlib

/-!
Formal model of the wavesurfer.js spectrogram pipeline.

Shallow embedding of the signal-processing core found in
`src/plugins/spectrogram/fft.worker.ts`, `src/plugins/spectrogram-worker.ts`,
`dist/fft.js` and the main-thread spectrogram plugin: frequency-scale
conversion, triangular filter banks, dB quantization to bytes, the frame
scheduler (overlap and hop size), the windowed radix-2 FFT engine, and the
display resampler.  JavaScript numbers are idealized as real numbers; the
`Uint8Array` byte store is modelled by reduction modulo 256; JavaScript's
falsy-default idiom `x || d` (which replaces both `undefined` and `0` by `d`)
is modelled by `orDefault`; exceptions are modelled with `Except SpecErr`.
-/

namespace Wavesurfer

/-- JavaScript `x || dflt` on an optional numeric value: `undefined` and `0`
are both falsy, so both select the default. -/
noncomputable def orDefault (x : Option ℝ) (dflt : ℝ) : ℝ :=
  match x with
  | none => dflt
  | some v => if v = 0 then dflt else v

/-! ## Frequency scale converters (`dist/fft.js`, `fft.worker.ts`) -/

/-- `ERB_A = (1000 * Math.log(10)) / (24.7 * 4.37)`. -/
noncomputable def ERB_A : ℝ := 1000 * Real.log 10 / (24.7 * 4.37)

/-- `hzToMel(hz) = 2595 * log10(1 + hz / 700)`. -/
noncomputable def hzToMel (hz : ℝ) : ℝ := 2595 * Real.logb 10 (1 + hz / 700)

/-- `melToHz(mel) = 700 * (10 ^ (mel / 2595) - 1)`. -/
noncomputable def melToHz (mel : ℝ) : ℝ := 700 * ((10 : ℝ) ^ (mel / 2595) - 1)

/-- `hzToLog(hz) = log10(max(1, hz))`. -/
noncomputable def hzToLog (hz : ℝ) : ℝ := Real.logb 10 (max 1 hz)

/-- `logToHz(log) = 10 ^ log`. -/
noncomputable def logToHz (log : ℝ) : ℝ := (10 : ℝ) ^ log

/-- `hzToBark`: raw Traunmüller formula with the two sequential boundary
corrections (the second `if` tests the already-corrected value, exactly as in
the source). -/
noncomputable def hzToBark (hz : ℝ) : ℝ :=
  let bark := 26.81 * hz / (1960 + hz) - 0.53
  let b1 := if bark < 2 then bark + 0.15 * (2 - bark) else bark
  if b1 > 20.1 then b1 + 0.22 * (b1 - 20.1) else b1

/-- `barkToHz`: undo the boundary corrections (again two sequential `if`s on
the mutated value), then the closed-form inversion. -/
noncomputable def barkToHz (bark : ℝ) : ℝ :=
  let b1 := if bark < 2 then (bark - 0.3) / 0.85 else bark
  let b2 := if b1 > 20.1 then (b1 + 4.422) / 1.22 else b1
  1960 * ((b2 + 0.53) / (26.28 - b2))

/-- `hzToErb(hz) = ERB_A * log10(1 + hz * 0.00437)`. -/
noncomputable def hzToErb (hz : ℝ) : ℝ := ERB_A * Real.logb 10 (1 + hz * 0.00437)

/-- `erbToHz(erb) = (10 ^ (erb / ERB_A) - 1) / 0.00437`. -/
noncomputable def erbToHz (erb : ℝ) : ℝ := ((10 : ℝ) ^ (erb / ERB_A) - 1) / 0.00437

/-- `hzToScale(hz, scale)` from `dist/fft.js`: dispatch on the scale name,
any unknown name (including `linear`) falls through to the identity. -/
noncomputable def hzToScale (hz : ℝ) (scale : String) : ℝ :=
  if scale = "mel" then hzToMel hz
  else if scale = "logarithmic" then hzToLog hz
  else if scale = "bark" then hzToBark hz
  else if scale = "erb" then hzToErb hz
  else hz

/-- `scaleToHz(scale, scaleType)` from `dist/fft.js`. -/
noncomputable def scaleToHz (scale : ℝ) (scaleType : String) : ℝ :=
  if scaleType = "mel" then melToHz scale
  else if scaleType = "logarithmic" then logToHz scale
  else if scaleType = "bark" then barkToHz scale
  else if scaleType = "erb" then erbToHz scale
  else scale

/-! ## Quantizer (`convertSpectrumToColors` / the worker inner loop) -/

/-- One iteration of the spectrum-to-byte loop:
```js
const magnitude = spectrum[j] > 1e-12 ? spectrum[j] : 1e-12
const valueDB = 20 * Math.log10(magnitude)
if (valueDB < -gainPlusRange) freqBins[j] = 0
else if (valueDB > -gainDB) freqBins[j] = 255
else freqBins[j] = Math.round(((valueDB + gainDB) / rangeDB) * 255)
```
The result is stored into a `Uint8Array`, whose `ToUint8` conversion reduces
the (possibly negative) rounded value modulo 256. -/
noncomputable def toIntensity (magnitude gainDB rangeDB : ℝ) : ℕ :=
  let gainPlusRange := gainDB + rangeDB
  let m := if magnitude > 1e-12 then magnitude else 1e-12
  let valueDB := 20 * Real.logb 10 m
  if valueDB < -gainPlusRange then 0
  else if valueDB > -gainDB then 255
  else (round ((valueDB + gainDB) / rangeDB * 255) % 256).toNat

/-- The quantizer as the spec describes it, with the byte store made explicit:
clamp the magnitude to a floor of `1e-12` (a `max`), take
`valueDB = 20*log10(magnitude)`, output `0` below `-(gainDB+rangeDB)`, `255`
above `-gainDB`, otherwise the rounded ramp value reduced modulo 256 (the
`Uint8Array` wrap; the raw ramp value lies in `[-255, 0]` on that branch). -/
noncomputable def toIntensityRef (magnitude gainDB rangeDB : ℝ) : ℕ :=
  let valueDB := 20 * Real.logb 10 (max magnitude 1e-12)
  if valueDB < -(gainDB + rangeDB) then 0
  else if valueDB > -gainDB then 255
  else (round ((valueDB + gainDB) / rangeDB * 255) % 256).toNat

/-! ## Frame scheduler (`calculateFrequencies` in both workers) -/

/-- Requested-overlap resolution:
```js
let actualNoverlap = noverlap || Math.max(0, Math.round(fftSamples * 0.5))
const maxOverlap = fftSamples * 0.5
actualNoverlap = Math.min(actualNoverlap, maxOverlap)
```
Note the `||`: an explicit `noverlap` of `0` is falsy and selects the default,
and there is no lower clamp. -/
noncomputable def actualOverlap (noverlap : Option ℝ) (fftSamples : ℝ) : ℝ :=
  min (orDefault noverlap (max 0 ((round (fftSamples * 0.5) : ℤ) : ℝ))) (fftSamples * 0.5)

/-- Worker hop size:
```js
const minHopSize = Math.max(64, fftSamples * 0.25)
const hopSize = Math.max(minHopSize, fftSamples - actualNoverlap)
``` -/
noncomputable def workerHopSize (noverlap : Option ℝ) (fftSamples : ℝ) : ℝ :=
  max (max 64 (fftSamples * 0.25)) (fftSamples - actualOverlap noverlap fftSamples)

/-- Main-thread (`getFrequencies`) overlap: `this.noverlap` if truthy, else
`Math.max(0, Math.round(fftSamples - buffer.length / totalWidth))`. -/
noncomputable def mainNoverlap (noverlap : Option ℝ) (fftSamples bufferLength totalWidth : ℝ) : ℝ :=
  orDefault noverlap (max 0 ((round (fftSamples - bufferLength / totalWidth) : ℤ) : ℝ))

/-- Main-thread frame stride: `currentOffset += fftSamples - noverlap`, with
no clamping whatsoever. -/
noncomputable def mainHopSize (noverlap : Option ℝ) (fftSamples bufferLength totalWidth : ℝ) : ℝ :=
  fftSamples - mainNoverlap noverlap fftSamples bufferLength totalWidth

/-- The values taken by a JavaScript loop head
`for (x = start; x < stop; x += step)`.  The loop diverges for `step ≤ 0`
(never the case in the sources, where the step is a hop size `≥ 64`); the
guard `0 < step` makes the model total. -/
noncomputable def strideIndices (stop step start : ℝ) : List ℝ :=
  if h : start < stop ∧ 0 < step then start :: strideIndices stop step (start + step) else []
termination_by (⌈(stop - start) / step⌉).toNat
decreasing_by
  have hlt : (0 : ℝ) < (stop - start) / step := div_pos (by linarith [h.1]) h.2
  have hone : (0 : ℤ) < ⌈(stop - start) / step⌉ := Int.lt_ceil.mpr (by push_cast; exact hlt)
  have hstep : (stop - (start + step)) / step = (stop - start) / step - 1 := by
    rw [show stop - (start + step) = stop - start - step by ring, sub_div, div_self h.2.ne']
  rw [hstep, Int.ceil_sub_one]
  omega

/-- `ℕ`-indexed variant of the same loop shape, used for the FFT butterfly
index sweep `while (i < bufferSize) { ...; i += halfSize << 1 }`. -/
def natStride (stop step start : ℕ) : List ℕ :=
  if h : start < stop ∧ 0 < step then start :: natStride stop step (start + step) else []
termination_by stop - start
decreasing_by omega

/-- Frame start offsets of
`for (sample = startSample; sample + fftSamples < endSample; sample += hopSize)`:
the strict bound `sample + fftSamples < endSample` is `sample < endSample - fftSamples`. -/
noncomputable def frameStarts (startSample endSample fftSamples hopSize : ℝ) : List ℝ :=
  strideIndices (endSample - fftSamples) hopSize startSample

/-! ## Filter bank (`createFilterBank` / `applyFilterBank`) -/

/-- The single target frequency of filter row `i`:
`hz = scaleToHz(filterMin + (i / numFilters) * (filterMax - filterMin))`
with `filterMin = hzToScale(0)` and `filterMax = hzToScale(sampleRate / 2)`. -/
noncomputable def filterHz (numFilters : ℕ) (sampleRate : ℝ) (hzToS scaleToS : ℝ → ℝ)
    (i : ℕ) : ℝ :=
  let filterMin := hzToS 0
  let filterMax := hzToS (sampleRate / 2)
  scaleToS (filterMin + ((i : ℝ) / (numFilters : ℝ)) * (filterMax - filterMin))

/-- `createFilterBank(numFilters, fftSamples, sampleRate, hzToScale, scaleToHz)`
as the entry function of the weight matrix: row `i` is zero except
`1 - r` at column `j = floor(hz / scale)` and `r` at column `j + 1`, where
`scale = sampleRate / fftSamples`, `hzLow = j * scale`, `hzHigh = (j+1) * scale`
and `r = (hz - hzLow) / (hzHigh - hzLow)`. -/
noncomputable def createFilterBank (numFilters fftSamples : ℕ) (sampleRate : ℝ)
    (hzToS scaleToS : ℝ → ℝ) : ℕ → ℕ → ℝ :=
  fun i k =>
    let scale := sampleRate / (fftSamples : ℝ)
    let hz := filterHz numFilters sampleRate hzToS scaleToS i
    let j : ℤ := ⌊hz / scale⌋
    let hzLow := (j : ℝ) * scale
    let hzHigh := ((j : ℝ) + 1) * scale
    let r := (hz - hzLow) / (hzHigh - hzLow)
    if (k : ℤ) = j then 1 - r else if (k : ℤ) = j + 1 then r else 0

/-- `applyFilterBank(fftPoints, filterBank)`: output `i` is the dot product of
the spectrum (of length `spectrumLen = fftPoints.length`) with row `i`.  Note
the inner loop runs over the spectrum length, not the row width. -/
noncomputable def applyFilterBank (fftPoints : ℕ → ℝ) (spectrumLen : ℕ)
    (filterBank : ℕ → ℕ → ℝ) : ℕ → ℝ :=
  fun i => ∑ j ∈ Finset.range spectrumLen, fftPoints j * filterBank i j

/-- The scale-name dispatch building the bank in both workers and in
`createFilterBankForScale` of `dist/fft.js` (`linear` and unknown names: no
filter bank). -/
noncomputable def createFilterBankForScale (scale : String) (numFilters fftSamples : ℕ)
    (sampleRate : ℝ) : Option (ℕ → ℕ → ℝ) :=
  if scale = "mel" then
    some (createFilterBank numFilters fftSamples sampleRate hzToMel melToHz)
  else if scale = "logarithmic" then
    some (createFilterBank numFilters fftSamples sampleRate hzToLog logToHz)
  else if scale = "bark" then
    some (createFilterBank numFilters fftSamples sampleRate hzToBark barkToHz)
  else if scale = "erb" then
    some (createFilterBank numFilters fftSamples sampleRate hzToErb erbToHz)
  else none

/-- Sum of one filter row over the columns `applyFilterBank` actually reads
(`fftSamples / 2` of them) — i.e. the bank applied to an all-ones spectrum. -/
noncomputable def appliedRowSum (bank : ℕ → ℕ → ℝ) (fftSamples : ℕ) (i : ℕ) : ℝ :=
  applyFilterBank (fun _ => 1) (fftSamples / 2) bank i

/-- Total of `apply(build(...), all-ones spectrum)` across the whole bank for
a given scale name (`0` for scales with no bank). -/
noncomputable def onesTotal (scale : String) (numFilters fftSamples : ℕ)
    (sampleRate : ℝ) : ℝ :=
  match createFilterBankForScale scale numFilters fftSamples sampleRate with
  | some bank => ∑ i ∈ Finset.range numFilters, appliedRowSum bank fftSamples i
  | none => 0

/-! ## FFT engine (`class FFT` in the workers, `function FFT` in `dist/fft.js`) -/

/-- The exceptions thrown by the engine:
`Error("No such window function <name>")` in the constructor,
`"Invalid buffer size, must be a power of 2."` and
`"Supplied buffer is not the same size as defined FFT..."` in
`calculateSpectrum`. -/
inductive SpecErr where
  | unknownWindow (name : String)
  | invalidBufferSize
  | sizeMismatch (fftSize bufferSize : ℕ)
deriving DecidableEq, Repr

/-- The window-weights table of the constructor's `switch (windowFunc)`.
`undefined` shares the `hann` case; the `gauss` and `blackman` alphas use the
falsy default (`alpha || 0.25` resp. `alpha || 0.16`); any other name throws.
Note the source's spelling of the `lanczoz` case. -/
noncomputable def windowTable (windowFunc : Option String) (alpha : Option ℝ)
    (bufferSize : ℕ) : Except SpecErr (ℕ → ℝ) :=
  let N : ℝ := (bufferSize : ℝ)
  let hann : ℕ → ℝ := fun i => 0.5 * (1 - Real.cos (Real.pi * 2 * i / (N - 1)))
  match windowFunc with
  | none => .ok hann
  | some w =>
    if w = "bartlett" then
      .ok fun i => 2 / (N - 1) * ((N - 1) / 2 - |(i : ℝ) - (N - 1) / 2|)
    else if w = "bartlettHann" then
      .ok fun i => 0.62 - 0.48 * |(i : ℝ) / (N - 1) - 0.5| -
        0.38 * Real.cos (Real.pi * 2 * i / (N - 1))
    else if w = "blackman" then
      let a := orDefault alpha 0.16
      .ok fun i => (1 - a) / 2 - 0.5 * Real.cos (Real.pi * 2 * i / (N - 1)) +
        a / 2 * Real.cos (4 * Real.pi * i / (N - 1))
    else if w = "cosine" then
      .ok fun i => Real.cos (Real.pi * i / (N - 1) - Real.pi / 2)
    else if w = "gauss" then
      let a := orDefault alpha 0.25
      .ok fun i => Real.exp (-0.5 * (((i : ℝ) - (N - 1) / 2) / (a * (N - 1) / 2)) ^ 2)
    else if w = "hamming" then
      .ok fun i => 0.54 - 0.46 * Real.cos (Real.pi * 2 * i / (N - 1))
    else if w = "hann" then
      .ok hann
    else if w = "lanczoz" then
      .ok fun i => Real.sin (Real.pi * (2 * i / (N - 1) - 1)) /
        (Real.pi * (2 * i / (N - 1) - 1))
    else if w = "rectangular" then
      .ok fun _ => 1
    else if w = "triangular" then
      .ok fun i => 2 / N * (N / 2 - |(i : ℝ) - (N - 1) / 2|)
    else .error (.unknownWindow w)

/-- One pass of the bit-reversal table construction: for `i < limit`,
`reverseTable[i + limit] = reverseTable[i] + bit` (writes land in
`[limit, 2*limit)`, reads take the previous pass's values below `limit`). -/
def revPass (rev : ℕ → ℕ) (limit bit : ℕ) : ℕ → ℕ :=
  fun j => if limit ≤ j ∧ j < 2 * limit then rev (j - limit) + bit else rev j

/-- The full `while (limit < bufferSize)` doubling loop: pass `k` runs with
`limit = 2 ^ k` and `bit = bufferSize >> (k + 1)`. -/
def reverseTableOf (bufferSize : ℕ) : ℕ → ℕ :=
  (List.range (Nat.clog 2 bufferSize)).foldl
    (fun rev k => revPass rev (2 ^ k) (bufferSize / 2 ^ (k + 1))) (fun _ => 0)

/-- The engine state: the fields of the JS `FFT` object.  The twiddle tables
`sinTable[i] = sin(-π/i)`, `cosTable[i] = cos(-π/i)` are stored as functions
(index 0 divides by zero; it is never read by the butterfly loop, which
indexes only `halfSize ≥ 1`). -/
structure FFTState where
  bufferSize : ℕ
  sampleRate : ℝ
  bandwidth : ℝ
  sinTable : ℕ → ℝ
  cosTable : ℕ → ℝ
  windowValues : ℕ → ℝ
  reverseTable : ℕ → ℕ
  peakBand : ℕ
  peak : ℝ

/-- `new FFT(bufferSize, sampleRate, windowFunc, alpha)`.  The constructor
computes the tables and throws only for an unknown window name — in
particular it performs no power-of-two check on `bufferSize`. -/
noncomputable def FFT.make (bufferSize : ℕ) (sampleRate : ℝ) (windowFunc : Option String)
    (alpha : Option ℝ) : Except SpecErr FFTState :=
  match windowTable windowFunc alpha bufferSize with
  | .error e => .error e
  | .ok win =>
    .ok { bufferSize := bufferSize
          sampleRate := sampleRate
          bandwidth := 2 / (bufferSize : ℝ) * (sampleRate / 2)
          sinTable := fun i => Real.sin (-Real.pi / i)
          cosTable := fun i => Real.cos (-Real.pi / i)
          windowValues := win
          reverseTable := reverseTableOf bufferSize
          peakBand := 0
          peak := 0 }

/-- One butterfly:
```js
off = i + halfSize
tr = cr * real[off] - ci * imag[off]
ti = cr * imag[off] + ci * real[off]
real[off] = real[i] - tr; imag[off] = imag[i] - ti
real[i] += tr;            imag[i] += ti
``` -/
noncomputable def butterflyAt (halfSize : ℕ) (c : ℝ × ℝ) (st : (ℕ → ℝ) × (ℕ → ℝ))
    (i : ℕ) : (ℕ → ℝ) × (ℕ → ℝ) :=
  let re := st.1
  let im := st.2
  let off := i + halfSize
  let tr := c.1 * re off - c.2 * im off
  let ti := c.1 * im off + c.2 * re off
  (fun j => if j = off then re i - tr else if j = i then re i + tr else re j,
   fun j => if j = off then im i - ti else if j = i then im i + ti else im j)

/-- The `while (i < bufferSize) { ...; i += halfSize << 1 }` butterfly sweep
for one `fftStep`, at the current phase `c`. -/
noncomputable def butterflySweep (bufferSize halfSize : ℕ) (c : ℝ × ℝ) (fftStep : ℕ)
    (st : (ℕ → ℝ) × (ℕ → ℝ)) : (ℕ → ℝ) × (ℕ → ℝ) :=
  (natStride bufferSize (2 * halfSize) fftStep).foldl (butterflyAt halfSize c) st

/-- One FFT stage (`for (fftStep = 0; fftStep < halfSize; fftStep++)`): each
step sweeps the arrays with the current phase shift, then advances the phase
by the twiddle recurrence. -/
noncomputable def fftStage (bufferSize halfSize : ℕ) (phaseStep : ℝ × ℝ)
    (st0 : (ℕ → ℝ) × (ℕ → ℝ)) : (ℕ → ℝ) × (ℕ → ℝ) :=
  ((List.range halfSize).foldl
    (fun (acc : (ℝ × ℝ) × ((ℕ → ℝ) × (ℕ → ℝ))) fftStep =>
      let p := acc.1
      let st := butterflySweep bufferSize halfSize p fftStep acc.2
      ((p.1 * phaseStep.1 - p.2 * phaseStep.2, p.1 * phaseStep.2 + p.2 * phaseStep.1), st))
    ((1, 0), st0)).2

/-- The `while (halfSize < bufferSize) { ...; halfSize <<= 1 }` outer loop:
`halfSize` takes the powers of two below `bufferSize`. -/
noncomputable def fftStages (bufferSize : ℕ) (sinT cosT : ℕ → ℝ)
    (st0 : (ℕ → ℝ) × (ℕ → ℝ)) : (ℕ → ℝ) × (ℕ → ℝ) :=
  ((List.range (Nat.clog 2 bufferSize)).map (2 ^ ·)).foldl
    (fun st h => fftStage bufferSize h (cosT h, sinT h) st) st0

/-- `calculateSpectrum(buffer)`.  Checks (in this order) that the configured
size is a power of two (`2^floor(log2 n) = n`) and that the frame length
matches, loads the bit-reversed windowed samples, runs the stages, forms the
magnitude spectrum `(2 / n) * sqrt(re² + im²)` and threads the running
peak/peakBand.  Returns the updated engine state and the spectrum. -/
noncomputable def calculateSpectrum (st : FFTState) (buffer : List ℝ) :
    Except SpecErr (FFTState × (ℕ → ℝ)) :=
  let n := st.bufferSize
  if 2 ^ Nat.log2 n ≠ n then .error .invalidBufferSize
  else if n ≠ buffer.length then .error (.sizeMismatch n buffer.length)
  else
    let re0 : ℕ → ℝ := fun i => buffer.getD (st.reverseTable i) 0 *
      st.windowValues (st.reverseTable i)
    let im0 : ℕ → ℝ := fun _ => 0
    let res := fftStages n st.sinTable st.cosTable (re0, im0)
    let spectrum : ℕ → ℝ := fun i =>
      2 / (n : ℝ) * Real.sqrt (res.1 i * res.1 i + res.2 i * res.2 i)
    let pk := (List.range (n / 2)).foldl
      (fun (acc : ℕ × ℝ) i => if spectrum i > acc.2 then (i, spectrum i) else acc)
      (st.peakBand, st.peak)
    .ok ({ st with peakBand := pk.1, peak := pk.2 }, spectrum)

/-- Constructing an engine and immediately computing one spectrum — the
sequencing relevant to where configuration errors surface. -/
noncomputable def constructThenSpectrum (bufferSize : ℕ) (sampleRate : ℝ)
    (windowFunc : Option String) (alpha : Option ℝ) (buffer : List ℝ) :
    Except SpecErr (FFTState × (ℕ → ℝ)) :=
  match FFT.make bufferSize sampleRate windowFunc alpha with
  | .error e => .error e
  | .ok st => calculateSpectrum st buffer

/-- The window names the constructor's `switch` accepts (besides `undefined`).
Note the source's spelling `lanczoz`. -/
def codeWindowNames : List String :=
  ["bartlett", "bartlettHann", "blackman", "cosine", "gauss", "hamming", "hann",
   "lanczoz", "rectangular", "triangular"]

/-- The window-function names the spec lists as supported (for comparison
with the code's set; note the spec's spelling `lanczos`). -/
def specWindowNames : List String :=
  ["rectangular", "triangular", "bartlett", "bartlettHann", "hamming", "hann",
   "cosine", "lanczos", "gauss", "blackman"]

/-! ## Worker pipeline (`calculateFrequencies` of `fft.worker.ts`) -/

/-- The `options` record of the worker message. -/
structure FreqOptions where
  startTime : ℝ
  endTime : ℝ
  sampleRate : ℝ
  fftSamples : ℕ
  windowFunc : Option String
  alpha : Option ℝ
  noverlap : Option ℝ
  scale : String
  gainDB : ℝ
  rangeDB : ℝ
  splitChannels : Bool

/-- `channelData.slice(sample, sample + fftSamples)` for an (integer-valued)
frame start `sample`; the channel is a total sample function. -/
noncomputable def segmentOf (channelData : ℕ → ℝ) (sample : ℝ) (fftSamples : ℕ) : List ℝ :=
  (List.range fftSamples).map fun (k : ℕ) => channelData ((⌊sample⌋ + (k : ℤ)).toNat)

/-- The per-frame body of the worker loop: FFT, optional filter bank, then the
byte conversion (`toIntensity` per bin).  The engine state is threaded frame
to frame (the JS code reuses one `fft` object, accumulating its peak). -/
noncomputable def processFrames (channelData : ℕ → ℝ) (fftSamples : ℕ)
    (fb : Option (ℕ → ℕ → ℝ)) (numFilters : ℕ) (gainDB rangeDB : ℝ) :
    FFTState → List ℝ → Except SpecErr (FFTState × List (List ℕ))
  | st, [] => .ok (st, [])
  | st, sample :: rest =>
    match calculateSpectrum st (segmentOf channelData sample fftSamples) with
    | .error e => .error e
    | .ok (st1, spectrum0) =>
      let spectrum := match fb with
        | some bank => applyFilterBank spectrum0 (fftSamples / 2) bank
        | none => spectrum0
      let binCount := match fb with
        | some _ => numFilters
        | none => fftSamples / 2
      let freqBins := (List.range binCount).map fun j =>
        toIntensity (spectrum j) gainDB rangeDB
      match processFrames channelData fftSamples fb numFilters gainDB rangeDB st1 rest with
      | .error e => .error e
      | .ok (st2, cols) => .ok (st2, freqBins :: cols)

/-- The `for (let c = 0; c < channels; c++)` loop: each channel re-enumerates
the same frame starts over its own data, threading the engine state. -/
noncomputable def processChannels (audioChannels : List (ℕ → ℝ)) (fftSamples : ℕ)
    (fb : Option (ℕ → ℕ → ℝ)) (numFilters : ℕ) (gainDB rangeDB : ℝ) (frames : List ℝ) :
    FFTState → List ℕ → Except SpecErr (FFTState × List (List (List ℕ)))
  | st, [] => .ok (st, [])
  | st, c :: cs =>
    match processFrames (audioChannels.getD c fun _ => 0) fftSamples fb numFilters
        gainDB rangeDB st frames with
    | .error e => .error e
    | .ok (st1, channelFreq) =>
      match processChannels audioChannels fftSamples fb numFilters gainDB rangeDB
          frames st1 cs with
      | .error e => .error e
      | .ok (st2, rest) => .ok (st2, channelFreq :: rest)

/-- `calculateFrequencies(audioChannels, options)` of the spectrogram worker:
sample range from the times, engine construction, filter-bank selection by
scale name, overlap/hop resolution, then the channel × frame loops producing
`Uint8Array[][]` (channel × time × frequency bytes). -/
noncomputable def calculateFrequencies (audioChannels : List (ℕ → ℝ)) (o : FreqOptions) :
    Except SpecErr (List (List (List ℕ))) :=
  let startSample : ℝ := ⌊o.startTime * o.sampleRate⌋
  let endSample : ℝ := ⌊o.endTime * o.sampleRate⌋
  let channels := if o.splitChannels then audioChannels.length else 1
  match FFT.make o.fftSamples o.sampleRate o.windowFunc o.alpha with
  | .error e => .error e
  | .ok st =>
    let numFilters := o.fftSamples / 2
    let fb := createFilterBankForScale o.scale numFilters o.fftSamples o.sampleRate
    let hopSize := workerHopSize o.noverlap (o.fftSamples : ℝ)
    let frames := frameStarts startSample endSample (o.fftSamples : ℝ) hopSize
    match processChannels audioChannels o.fftSamples fb numFilters o.gainDB o.rangeDB
        frames st (List.range channels) with
    | .error e => .error e
    | .ok (_, frequencies) => .ok frequencies

/-- The end-to-end silence scenario configuration of the spec:
`startTime = 0`, `endTime = 2` seconds, `sampleRate = 44100`,
`fftSamples = 1024`, window `hann`, no explicit alpha or overlap,
`scale = mel`, `gainDB = 20`, `rangeDB = 80`, split channels. -/
noncomputable def silenceOptions : FreqOptions :=
  ⟨0, 2, 44100, 1024, some "hann", none, none, "mel", 20, 80, true⟩

/-! ## Resampler (`resampleChannel` / `fastDownsample` of the main-thread plugin) -/

/-- `fastDownsample(oldMatrix, targetWidth, freqBins)`: stride sampling with
averaging capped at 4 source columns, floor-based windows. -/
def fastDownsample (oldMatrix : List (List ℚ)) (targetWidth freqBins : ℕ) :
    List (List ℚ) :=
  let ratio : ℚ := (oldMatrix.length : ℚ) / (targetWidth : ℚ)
  (List.range targetWidth).map fun i =>
    let start := (⌊(i : ℚ) * ratio⌋).toNat
    let stop := min (⌊((i : ℚ) + 1) * ratio⌋).toNat oldMatrix.length
    let sampleCount := min 4 (stop - start)
    if sampleCount = 1 then oldMatrix.getD start []
    else
      (List.range freqBins).map fun k =>
        let sum := ∑ j ∈ Finset.range sampleCount,
          ((oldMatrix.getD (start + j) []).getD k 0)
        ((round (sum / (sampleCount : ℚ)) : ℤ) : ℚ)

/-- `resampleChannel(oldMatrix, targetWidth)` with the plugin's
`performanceMode === 'fast'` flag made explicit.  The fast path returns the
input matrix itself when `oldColumns === targetWidth || targetWidth === 0`;
otherwise downsampling averages `[floor(i*ratio), min(ceil((i+1)*ratio), oldColumns))`
and upsampling interpolates between the two nearest source columns. -/
def resampleChannel (oldMatrix : List (List ℚ)) (targetWidth : ℕ)
    (performanceMode : Bool) : List (List ℚ) :=
  let oldColumns := oldMatrix.length
  let freqBins := (oldMatrix.headD []).length
  if oldColumns = targetWidth ∨ targetWidth = 0 then oldMatrix
  else
    let ratio : ℚ := (oldColumns : ℚ) / (targetWidth : ℚ)
    if performanceMode ∧ ratio > 8 then fastDownsample oldMatrix targetWidth freqBins
    else if ratio ≥ 1 then
      (List.range targetWidth).map fun i =>
        let start := (⌊(i : ℚ) * ratio⌋).toNat
        let stop := min (⌈((i : ℚ) + 1) * ratio⌉).toNat oldColumns
        let count := stop - start
        if count = 1 then oldMatrix.getD start []
        else
          (List.range freqBins).map fun k =>
            let sum := ∑ j ∈ Finset.range count,
              ((oldMatrix.getD (start + j) []).getD k 0)
            ((round (sum / (count : ℚ)) : ℤ) : ℚ)
    else
      (List.range targetWidth).map fun i =>
        let srcIndex := (i : ℚ) * ratio
        let leftIndex := (⌊srcIndex⌋).toNat
        let rightIndex := min (leftIndex + 1) (oldColumns - 1)
        let weight := srcIndex - (⌊srcIndex⌋ : ℚ)
        if weight = 0 ∨ leftIndex = rightIndex ∨ performanceMode then
          oldMatrix.getD leftIndex []
        else
          (List.range freqBins).map fun k =>
            ((round ((oldMatrix.getD leftIndex []).getD k 0 * (1 - weight) +
              (oldMatrix.getD rightIndex []).getD k 0 * weight) : ℤ) : ℚ)

/-! ## Theorems -/

/-- Helper: length of a JavaScript counting loop `for (x = start; x < stop; x += step)`
with positive step. -/
theorem strideIndices_length (stop step start : ℝ) :
    0 < step →
    (strideIndices stop step start).length =
      if start < stop then (⌈(stop - start) / step⌉).toNat else 0 := by
  induction start using strideIndices.induct stop step with
  | case1 start h ih =>
    intro hstep
    rw [strideIndices, dif_pos h, if_pos h.1, List.length_cons, ih hstep]
    have hx : (0 : ℝ) < (stop - start) / step := div_pos (by linarith [h.1]) hstep
    have hone : (0 : ℤ) < ⌈(stop - start) / step⌉ := Int.lt_ceil.mpr (by push_cast; exact hx)
    have hsub : (stop - (start + step)) / step = (stop - start) / step - 1 := by
      rw [show stop - (start + step) = stop - start - step by ring, sub_div,
        div_self hstep.ne']
    by_cases hlt : start + step < stop
    · rw [if_pos hlt, hsub, Int.ceil_sub_one]
      omega
    · rw [if_neg hlt]
      have hle : (stop - start) / step ≤ 1 := by
        rw [div_le_one hstep]
        linarith [not_lt.mp hlt]
      have : ⌈(stop - start) / step⌉ = 1 := by
        rw [Int.ceil_eq_iff]
        constructor
        · push_cast
          linarith
        · push_cast
          linarith
      omega
  | case2 start h =>
    intro hstep
    rcases not_and_or.mp h with h1 | h2
    · rw [strideIndices, dif_neg h, if_neg (by exact fun hh => h1 hh)]
      rfl
    · exact absurd hstep h2

/-- Helper: `log10(1/1000) = -3`. -/
theorem logb_ten_thousandth : Real.logb 10 (1 / 1000) = -3 := by
  rw [show (1 / 1000 : ℝ) = ((10 : ℝ) ^ (3 : ℕ))⁻¹ by norm_num, Real.logb_inv,
    Real.logb_pow, Real.logb_self_eq_one (by norm_num)]
  norm_num

/-- Claim C1, counterexample: at `magnitude = 1/1000`, `gainDB = 20`,
`rangeDB = 80` the value `valueDB = -60` falls in the middle branch of the
quantizer, where the code computes `round(((-60+20)/80)*255) = -127`; the
stored byte is the `Uint8Array` wrap `129`, not the claimed `round(...)`. -/
theorem toIntensity_mid_ramp_wraps :
    ¬ (20 * Real.logb 10 (max (1 / 1000 : ℝ) 1e-12) < -((20 : ℝ) + 80)) ∧
    ¬ (20 * Real.logb 10 (max (1 / 1000 : ℝ) 1e-12) > -(20 : ℝ)) ∧
    toIntensity (1 / 1000) 20 80 = 129 ∧
    round ((20 * Real.logb 10 (max (1 / 1000 : ℝ) 1e-12) + 20) / 80 * 255) = -127 ∧
    (129 : ℤ) ≠ -127 := by
  have hmax : max (1 / 1000 : ℝ) 1e-12 = 1 / 1000 := max_eq_left (by norm_num)
  have hv : (20 : ℝ) * Real.logb 10 (1 / 1000 : ℝ) = -60 := by
    rw [logb_ten_thousandth]
    norm_num
  have hround : round ((-60 + 20 : ℝ) / 80 * 255) = -127 := by
    rw [show ((-60 + 20 : ℝ) / 80 * 255) = -127.5 by norm_num]
    norm_num [round_eq]
  refine ⟨?_, ?_, ?_, ?_, by decide⟩
  · rw [hmax, hv]
    norm_num
  · rw [hmax, hv]
    norm_num
  · simp only [toIntensity]
    rw [if_pos (by norm_num : (1 / 1000 : ℝ) > 1e-12), hv,
      if_neg (by norm_num), if_neg (by norm_num), hround]
    decide
  · rw [hmax, hv, hround]

/-- Claim C1, amended: the quantizer clamps the magnitude to a floor of
`1e-12`, sets `valueDB = 20*log10(magnitude)`, stores `0` when
`valueDB < -(gainDB+rangeDB)`, `255` when `valueDB > -gainDB`, and otherwise
stores `round(((valueDB+gainDB)/rangeDB)*255)` reduced modulo 256 — the raw
rounded ramp value is in `[-255, 0]` there and the `Uint8Array` store wraps
it. -/
theorem toIntensity_eq_ref (magnitude gainDB rangeDB : ℝ)
    (hg : 0 < gainDB) (hr : 0 < rangeDB) :
    toIntensity magnitude gainDB rangeDB = toIntensityRef magnitude gainDB rangeDB := by
  have hclamp : (if magnitude > 1e-12 then magnitude else 1e-12) = max magnitude 1e-12 := by
    by_cases h : magnitude > 1e-12
    · rw [if_pos h, max_eq_left h.le]
    · rw [if_neg h, max_eq_right (not_lt.mp h)]
  simp only [toIntensity, toIntensityRef, hclamp]

/-- Witness for `toIntensity_eq_ref` at `magnitude = 1/1000`, `gainDB = 20`,
`rangeDB = 80`. -/
theorem toIntensity_eq_ref_witness :
    (0 : ℝ) < 20 ∧ (0 : ℝ) < 80 ∧
    toIntensity (1 / 1000) 20 80 = toIntensityRef (1 / 1000) 20 80 :=
  ⟨by norm_num, by norm_num, toIntensity_eq_ref (1 / 1000) 20 80 (by norm_num) (by norm_num)⟩

/-- Helper: mel round trip is exact for `hz ≥ 0`. -/
theorem melToHz_hzToMel (hz : ℝ) (h : 0 ≤ hz) : melToHz (hzToMel hz) = hz := by
  rw [hzToMel, melToHz,
    show (2595 : ℝ) * Real.logb 10 (1 + hz / 700) / 2595 = Real.logb 10 (1 + hz / 700)
      from by ring,
    Real.rpow_logb (by norm_num) (by norm_num) (by linarith)]
  ring

/-- Helper: logarithmic round trip is exact for `hz ≥ 1` (below 1 the clamp
`max(1, hz)` loses the input). -/
theorem logToHz_hzToLog (hz : ℝ) (h : 1 ≤ hz) : logToHz (hzToLog hz) = hz := by
  rw [hzToLog, logToHz, max_eq_right h,
    Real.rpow_logb (by norm_num) (by norm_num) (by linarith)]

/-- Helper: erb round trip is exact for `hz ≥ 0`. -/
theorem erbToHz_hzToErb (hz : ℝ) (h : 0 ≤ hz) : erbToHz (hzToErb hz) = hz := by
  have hlog : (0 : ℝ) < Real.log 10 := Real.log_pos (by norm_num)
  have hA : ERB_A ≠ 0 := by
    rw [ERB_A]
    positivity
  have harg : (0 : ℝ) < 1 + hz * 0.00437 := by nlinarith
  rw [hzToErb, erbToHz, mul_div_cancel_left₀ _ hA,
    Real.rpow_logb (by norm_num) (by norm_num) harg]
  ring

/-- Helper: bark round trip is exact for `hz ≥ 0` (both boundary corrections
invert exactly, and the closed-form inversion cancels). -/
theorem barkToHz_hzToBark (hz : ℝ) (h : 0 ≤ hz) : barkToHz (hzToBark hz) = hz := by
  have hden : (0 : ℝ) < 1960 + hz := by linarith
  simp only [hzToBark, barkToHz]
  set t : ℝ := 26.81 * hz / (1960 + hz) - 0.53 with ht
  have htlt : t < 26.28 := by
    rw [ht]
    have h1 : 26.81 * hz / (1960 + hz) < 26.81 := by
      rw [div_lt_iff₀ hden]
      nlinarith
    linarith
  have htmul : t * (1960 + hz) = 26.81 * hz - 0.53 * (1960 + hz) := by
    rw [ht, sub_mul, div_mul_cancel₀ _ hden.ne']
  clear_value t
  have hkey : 1960 * ((t + 0.53) / (26.28 - t)) = hz := by
    have h26 : (0 : ℝ) < 26.28 - t := by linarith
    rw [← mul_div_assoc, div_eq_iff h26.ne']
    linear_combination htmul
  rcases lt_or_le t 2 with h2 | h2
  · rw [if_pos h2]
    have hb1 : ¬ (t + 0.15 * (2 - t) > 20.1) := by
      push_neg
      linarith
    rw [if_neg hb1, if_pos (show t + 0.15 * (2 - t) < 2 by linarith)]
    have hundo : (t + 0.15 * (2 - t) - 0.3) / 0.85 = t := by
      rw [div_eq_iff (by norm_num : (0.85 : ℝ) ≠ 0)]
      ring
    rw [hundo, if_neg (show ¬ (t > 20.1) by push_neg; linarith), hkey]
  · rw [if_neg (not_lt.mpr h2)]
    rcases le_or_lt t 20.1 with h3 | h3
    · rw [if_neg (not_lt.mpr h3), if_neg (show ¬ (t < 2) by push_neg; exact h2),
        if_neg (not_lt.mpr h3), hkey]
    · rw [if_pos h3]
      have hb2 : ¬ (t + 0.22 * (t - 20.1) < 2) := by
        push_neg
        linarith
      rw [if_neg hb2, if_pos (show t + 0.22 * (t - 20.1) > 20.1 by linarith)]
      have hundo : (t + 0.22 * (t - 20.1) + 4.422) / 1.22 = t := by
        rw [div_eq_iff (by norm_num : (1.22 : ℝ) ≠ 0)]
        ring
      rw [hundo, hkey]

/-- Claim C2, counterexample: for the logarithmic scale at `hz = 0` the
forward clamp `log10(max(1, hz))` maps to `0` and the inverse returns `1`,
an error of `1`, far outside the claimed `1e-6` tolerance. -/
theorem log_roundtrip_fails_at_zero :
    ¬ (|scaleToHz (hzToScale 0 "logarithmic") "logarithmic" - 0| ≤ 1e-6) := by
  have hfwd : hzToScale 0 "logarithmic" = 0 := by
    rw [hzToScale, if_neg (by decide), if_pos rfl, hzToLog]
    rw [show max (1 : ℝ) 0 = 1 from max_eq_left (by norm_num), Real.logb_one]
  rw [hfwd, scaleToHz, if_neg (by decide), if_pos rfl, logToHz, Real.rpow_zero]
  norm_num

/-- Claim C2, amended: `fromScale(toScale(hz, s), s) = hz` holds exactly
(hence within `1e-6`) for every scale and `hz ∈ [0, 22050]`, except that the
logarithmic scale additionally needs `hz ≥ 1`: its forward clamp
`log10(max(1, hz))` makes the round trip return `1` for all `hz < 1`. -/
theorem scale_roundtrip (s : String) (hz : ℝ) (h0 : 0 ≤ hz) (h1 : hz ≤ 22050)
    (hlog : s = "logarithmic" → 1 ≤ hz) :
    |scaleToHz (hzToScale hz s) s - hz| ≤ 1e-6 := by
  have hexact : scaleToHz (hzToScale hz s) s = hz := by
    by_cases hm : s = "mel"
    · rw [hm, hzToScale, if_pos rfl, scaleToHz, if_pos rfl, melToHz_hzToMel hz h0]
    · by_cases hl : s = "logarithmic"
      · rw [hl, hzToScale, if_neg (by decide), if_pos rfl, scaleToHz, if_neg (by decide),
          if_pos rfl, logToHz_hzToLog hz (hlog hl)]
      · by_cases hb : s = "bark"
        · rw [hb, hzToScale, if_neg (by decide), if_neg (by decide), if_pos rfl, scaleToHz,
            if_neg (by decide), if_neg (by decide), if_pos rfl, barkToHz_hzToBark hz h0]
        · by_cases he : s = "erb"
          · rw [he, hzToScale, if_neg (by decide), if_neg (by decide), if_neg (by decide),
              if_pos rfl, scaleToHz, if_neg (by decide), if_neg (by decide),
              if_neg (by decide), if_pos rfl, erbToHz_hzToErb hz h0]
          · rw [hzToScale, if_neg hm, if_neg hl, if_neg hb, if_neg he, scaleToHz,
              if_neg hm, if_neg hl, if_neg hb, if_neg he]
  rw [hexact]
  norm_num

/-- Witness for `scale_roundtrip` at the mel scale, `hz = 440`. -/
theorem scale_roundtrip_witness :
    |scaleToHz (hzToScale 440 "mel") "mel" - 440| ≤ 1e-6 :=
  scale_roundtrip "mel" 440 (by norm_num) (by norm_num) (fun _ => by norm_num)

/-- Claim C7, counterexample: constructing an engine with the
non-power-of-two size `100` (window `hann`) succeeds — the constructor makes
no power-of-two check, so the failure is not raised at construction time. -/
theorem nonPowerOfTwo_constructs :
    (FFT.make 100 44100 (some "hann") none).isOk = true ∧ 2 ^ Nat.log2 100 ≠ 100 :=
  ⟨rfl, by simp [Nat.log2]⟩

/-- Claim C7, amended: a non-power-of-two `fftSize` is accepted by the
constructor (which validates only the window name); the invalid-buffer-size
error is raised by `calculateSpectrum`, i.e. by the first spectrum
computation, before even the frame-length check. -/
theorem powerOfTwo_checked_at_spectrum (n : ℕ) (sr : ℝ) (w : Option String)
    (a : Option ℝ) (buffer : List ℝ) (hpow : 2 ^ Nat.log2 n ≠ n)
    (hok : (FFT.make n sr w a).isOk = true) :
    constructThenSpectrum n sr w a buffer = .error .invalidBufferSize := by
  rw [constructThenSpectrum]
  cases hmk : FFT.make n sr w a with
  | error e =>
    rw [hmk] at hok
    simp [Except.isOk, Except.toBool] at hok
  | ok st =>
    have hbs : st.bufferSize = n := by
      rw [FFT.make] at hmk
      cases hwt : windowTable w a n with
      | error e => rw [hwt] at hmk; simp at hmk
      | ok win =>
        rw [hwt] at hmk
        simp only [Except.ok.injEq] at hmk
        rw [← hmk]
    simp only [calculateSpectrum, hbs]
    rw [if_pos hpow]

/-- Witness for `powerOfTwo_checked_at_spectrum` at `fftSize = 100`,
window `hann`, an empty frame. -/
theorem powerOfTwo_checked_at_spectrum_witness :
    2 ^ Nat.log2 100 ≠ 100 ∧
    constructThenSpectrum 100 44100 (some "hann") none [] = .error .invalidBufferSize :=
  ⟨by simp [Nat.log2], powerOfTwo_checked_at_spectrum 100 44100 (some "hann") none []
    (by simp [Nat.log2]) rfl⟩

/-- Claim C8, counterexample: `lanczos` is in the spec's set of supported
window names, yet construction with it fails — the code's `switch` only
accepts the spelling `lanczoz`. -/
theorem lanczos_rejected :
    "lanczos" ∈ specWindowNames ∧
    FFT.make 8 44100 (some "lanczos") none = .error (.unknownWindow "lanczos") :=
  ⟨by decide, rfl⟩

/-- Claim C8, amended: construction succeeds for exactly the code's window
names {bartlett, bartlettHann, blackman, cosine, gauss, hamming, hann,
lanczoz, rectangular, triangular} (plus an unset name, defaulting to hann),
and fails with the unknown-window error for every other name — in particular
for the spec's spelling `lanczos`. -/
theorem windowNames_spec (n : ℕ) (sr : ℝ) (a : Option ℝ) (w : String) :
    (w ∈ codeWindowNames → (FFT.make n sr (some w) a).isOk = true) ∧
    (w ∉ codeWindowNames → FFT.make n sr (some w) a = .error (.unknownWindow w)) := by
  constructor
  · intro hmem
    fin_cases hmem <;> rfl
  · intro hnot
    have h1 : ¬ w = "bartlett" := fun hc => hnot (hc ▸ (by decide))
    have h2 : ¬ w = "bartlettHann" := fun hc => hnot (hc ▸ (by decide))
    have h3 : ¬ w = "blackman" := fun hc => hnot (hc ▸ (by decide))
    have h4 : ¬ w = "cosine" := fun hc => hnot (hc ▸ (by decide))
    have h5 : ¬ w = "gauss" := fun hc => hnot (hc ▸ (by decide))
    have h6 : ¬ w = "hamming" := fun hc => hnot (hc ▸ (by decide))
    have h7 : ¬ w = "hann" := fun hc => hnot (hc ▸ (by decide))
    have h8 : ¬ w = "lanczoz" := fun hc => hnot (hc ▸ (by decide))
    have h9 : ¬ w = "rectangular" := fun hc => hnot (hc ▸ (by decide))
    have h10 : ¬ w = "triangular" := fun hc => hnot (hc ▸ (by decide))
    rw [FFT.make, windowTable]
    rw [if_neg h1, if_neg h2, if_neg h3, if_neg h4, if_neg h5, if_neg h6, if_neg h7,
      if_neg h8, if_neg h9, if_neg h10]

/-- Witness for `windowNames_spec`: `hamming` (in the code's set) constructs,
`lanczos` (outside it) fails. -/
theorem windowNames_spec_witness :
    ("hamming" ∈ codeWindowNames) ∧
    (FFT.make 8 44100 (some "hamming") none).isOk = true ∧
    ("lanczos" ∉ codeWindowNames) ∧
    FFT.make 8 44100 (some "lanczos") none = .error (.unknownWindow "lanczos") :=
  ⟨by decide, (windowNames_spec 8 44100 none "hamming").1 (by decide), by decide,
   (windowNames_spec 8 44100 none "lanczos").2 (by decide)⟩

/-- Helper: a two-point row (weights `1 - r` at `j` and `r` at `j + 1`) sums
to `1` over `range (m + 1)` whenever `0 ≤ j < m`. -/
theorem two_point_row_sum (j : ℤ) (r : ℝ) (m : ℕ) (hj0 : 0 ≤ j) (hjlt : j < (m : ℤ)) :
    ∑ k ∈ Finset.range (m + 1),
      (if (k : ℤ) = j then 1 - r else if (k : ℤ) = j + 1 then r else 0) = 1 := by
  obtain ⟨jn, rfl⟩ := Int.eq_ofNat_of_zero_le hj0
  have hjn : jn < m := by exact_mod_cast hjlt
  have hrw : ∀ k : ℕ,
      ((if (k : ℤ) = (jn : ℤ) then 1 - r else if (k : ℤ) = (jn : ℤ) + 1 then r else 0) : ℝ) =
        (if k = jn then 1 - r else 0) + (if k = jn + 1 then r else 0) := by
    intro k
    by_cases h1 : k = jn
    · subst h1
      rw [if_pos rfl, if_pos rfl, if_neg (by omega)]
      ring
    · rw [if_neg (by exact_mod_cast h1), if_neg h1]
      by_cases h2 : k = jn + 1
      · subst h2
        rw [if_pos (by push_cast; ring), if_pos rfl]
        ring
      · rw [if_neg (by push_cast; exact_mod_cast h2), if_neg h2]
        ring
  rw [Finset.sum_congr rfl fun k _ => hrw k, Finset.sum_add_distrib,
    Finset.sum_ite_eq' (Finset.range (m + 1)) jn fun _ => 1 - r,
    Finset.sum_ite_eq' (Finset.range (m + 1)) (jn + 1) fun _ => r,
    if_pos (Finset.mem_range.mpr (by omega)), if_pos (Finset.mem_range.mpr (by omega))]
  ring

/-- Claim C6, amended (true part): each filter row's weights sum to exactly 1
over the row's full `fftSize/2 + 1` columns, for any scale functions, whenever
the row's target frequency lies in `[0, sampleRate/2)` (so its two weights land
inside the row). -/
theorem filterBank_row_sum (hzToS scaleToS : ℝ → ℝ) (numFilters fftSamples : ℕ)
    (sampleRate : ℝ) (i : ℕ) (hfft : 0 < fftSamples) (hsr : 0 < sampleRate)
    (heven : fftSamples % 2 = 0)
    (h0 : 0 ≤ filterHz numFilters sampleRate hzToS scaleToS i)
    (hhalf : filterHz numFilters sampleRate hzToS scaleToS i < sampleRate / 2) :
    ∑ k ∈ Finset.range (fftSamples / 2 + 1),
      createFilterBank numFilters fftSamples sampleRate hzToS scaleToS i k = 1 := by
  have hfftR : (0 : ℝ) < (fftSamples : ℝ) := by exact_mod_cast hfft
  have hscale : (0 : ℝ) < sampleRate / (fftSamples : ℝ) := div_pos hsr hfftR
  have hcast : ((fftSamples / 2 : ℕ) : ℝ) = (fftSamples : ℝ) / 2 := by
    obtain ⟨m, hm⟩ := Nat.dvd_of_mod_eq_zero heven
    subst hm
    rw [Nat.mul_div_cancel_left m (by norm_num)]
    push_cast
    ring
  have hj0 : (0 : ℤ) ≤
      ⌊filterHz numFilters sampleRate hzToS scaleToS i / (sampleRate / (fftSamples : ℝ))⌋ :=
    Int.floor_nonneg.mpr (div_nonneg h0 hscale.le)
  have hjlt :
      ⌊filterHz numFilters sampleRate hzToS scaleToS i / (sampleRate / (fftSamples : ℝ))⌋ <
        ((fftSamples / 2 : ℕ) : ℤ) := by
    apply Int.floor_lt.mpr
    rw [show (((fftSamples / 2 : ℕ) : ℤ) : ℝ) = ((fftSamples / 2 : ℕ) : ℝ) from
        Int.cast_natCast _,
      hcast, div_lt_iff₀ hscale,
      show (fftSamples : ℝ) / 2 * (sampleRate / (fftSamples : ℝ)) = sampleRate / 2 by
        field_simp
        ring]
    exact hhalf
  simp only [createFilterBank]
  exact two_point_row_sum _ _ _ hj0 hjlt

/-- Witness for `filterBank_row_sum`: mel scale, row 0, `numFilters = 2`,
`fftSize = 4`, `sampleRate = 6` (row target frequency 0). -/
theorem filterBank_row_sum_witness :
    ∑ k ∈ Finset.range (4 / 2 + 1), createFilterBank 2 4 6 hzToMel melToHz 0 k = 1 := by
  have hz0 : filterHz 2 6 hzToMel melToHz 0 = 0 := by
    simp only [filterHz, hzToMel, melToHz]
    norm_num [Real.logb_one, Real.rpow_zero]
  exact filterBank_row_sum hzToMel melToHz 2 4 6 0 (by norm_num) (by norm_num) (by norm_num)
    (by rw [hz0]) (by rw [hz0]; norm_num)

/-- Helper: `applyFilterBank` over the `fftSize = 4` spectrum length reads
exactly columns 0 and 1 of a row. -/
theorem appliedRowSum_four (bank : ℕ → ℕ → ℝ) (i : ℕ) :
    appliedRowSum bank 4 i = bank i 0 + bank i 1 := by
  rw [appliedRowSum, applyFilterBank]
  norm_num [Finset.sum_range_succ]

/-- Claim C6, counterexample: for `numFilters = 2`, `fftSize = 4`,
`sampleRate = 6`, the all-ones totals differ between the logarithmic and mel
banks: the logarithmic bank's top filter targets `√3 ∈ (1.5, 3)`, placing
weight `r > 0` in column 2 — which `applyFilterBank` (iterating only over the
spectrum's `fftSize/2 = 2` entries) never reads — while both mel filters
target frequencies below `1.5`, losing nothing.  So the totals are `2 - r`
versus `2`. -/
theorem onesTotal_scale_dependent :
    onesTotal "logarithmic" 2 4 6 ≠ onesTotal "mel" 2 4 6 := by
  have hfH : ∀ (f g : ℝ → ℝ) (i : ℕ),
      filterHz 2 6 f g i = g (f 0 + ((i : ℝ) / 2) * (f (6 / 2) - f 0)) := by
    intro f g i
    simp only [filterHz]
    norm_num
  -- mel frequencies
  have hm0 : hzToMel 0 = 0 := by
    rw [hzToMel]
    norm_num [Real.logb_one]
  have hm3 : hzToMel (6 / 2) = 2595 * Real.logb 10 (703 / 700) := by
    rw [hzToMel]
    norm_num
  have hzm0 : filterHz 2 6 hzToMel melToHz 0 = 0 := by
    rw [hfH, hm0, hm3, melToHz]
    norm_num [Real.rpow_zero]
  have hzm1 : filterHz 2 6 hzToMel melToHz 1 =
      700 * ((10 : ℝ) ^ (Real.logb 10 (703 / 700) / 2) - 1) := by
    rw [hfH, hm0, hm3, melToHz,
      show (0 : ℝ) + ((1 : ℕ) : ℝ) / 2 * (2595 * Real.logb 10 (703 / 700) - 0) =
        2595 * (Real.logb 10 (703 / 700) / 2) by push_cast; ring,
      show (2595 : ℝ) * (Real.logb 10 (703 / 700) / 2) / 2595 =
        Real.logb 10 (703 / 700) / 2 by ring]
  -- bounds on the mel row-1 frequency
  have hu2 : (10 : ℝ) ^ (Real.logb 10 (703 / 700) / 2) *
      (10 : ℝ) ^ (Real.logb 10 (703 / 700) / 2) = 703 / 700 := by
    rw [← Real.rpow_add (by norm_num),
      show Real.logb 10 (703 / 700) / 2 + Real.logb 10 (703 / 700) / 2 =
        Real.logb 10 (703 / 700) by ring]
    exact Real.rpow_logb (by norm_num) (by norm_num) (by norm_num)
  have hupos : (0 : ℝ) < (10 : ℝ) ^ (Real.logb 10 (703 / 700) / 2) :=
    Real.rpow_pos_of_pos (by norm_num) _
  have hu1 : (1 : ℝ) ≤ (10 : ℝ) ^ (Real.logb 10 (703 / 700) / 2) := by
    nlinarith [hu2, hupos]
  have huub : (10 : ℝ) ^ (Real.logb 10 (703 / 700) / 2) < 1403 / 1400 := by
    nlinarith [hu2, hupos, sq_nonneg ((10 : ℝ) ^ (Real.logb 10 (703 / 700) / 2) - 1403 / 1400)]
  -- log frequencies
  have hl0 : hzToLog 0 = 0 := by
    rw [hzToLog, show max (1 : ℝ) 0 = 1 from max_eq_left (by norm_num), Real.logb_one]
  have hl3 : hzToLog (6 / 2) = Real.logb 10 3 := by
    rw [hzToLog, show max (1 : ℝ) (6 / 2) = 3 from by norm_num]
  have hzl0 : filterHz 2 6 hzToLog logToHz 0 = 1 := by
    rw [hfH, hl0, hl3, logToHz]
    norm_num [Real.rpow_zero]
  have hzl1 : filterHz 2 6 hzToLog logToHz 1 = (10 : ℝ) ^ (Real.logb 10 3 / 2) := by
    rw [hfH, hl0, hl3, logToHz,
      show (0 : ℝ) + ((1 : ℕ) : ℝ) / 2 * (Real.logb 10 3 - 0) = Real.logb 10 3 / 2 by
        push_cast; ring]
  -- bounds on the log row-1 frequency
  have hv2 : (10 : ℝ) ^ (Real.logb 10 3 / 2) * (10 : ℝ) ^ (Real.logb 10 3 / 2) = 3 := by
    rw [← Real.rpow_add (by norm_num),
      show Real.logb 10 3 / 2 + Real.logb 10 3 / 2 = Real.logb 10 3 by ring]
    exact Real.rpow_logb (by norm_num) (by norm_num) (by norm_num)
  have hvpos : (0 : ℝ) < (10 : ℝ) ^ (Real.logb 10 3 / 2) :=
    Real.rpow_pos_of_pos (by norm_num) _
  have hvlb : (3 / 2 : ℝ) < (10 : ℝ) ^ (Real.logb 10 3 / 2) := by
    nlinarith [hv2, hvpos, sq_nonneg ((10 : ℝ) ^ (Real.logb 10 3 / 2) - 3 / 2)]
  have hvub : (10 : ℝ) ^ (Real.logb 10 3 / 2) < 3 := by
    nlinarith [hv2, hvpos, sq_nonneg ((10 : ℝ) ^ (Real.logb 10 3 / 2) - 3)]
  -- floors of hz / scale (scale = 6/4 = 3/2)
  have hscale : ((6 : ℝ) / ((4 : ℕ) : ℝ)) = 3 / 2 := by norm_num
  have hflm0 : ⌊filterHz 2 6 hzToMel melToHz 0 / ((6 : ℝ) / ((4 : ℕ) : ℝ))⌋ = 0 := by
    rw [hzm0, hscale]
    norm_num
  have hflm1 : ⌊filterHz 2 6 hzToMel melToHz 1 / ((6 : ℝ) / ((4 : ℕ) : ℝ))⌋ = 0 := by
    rw [hzm1, hscale, Int.floor_eq_zero_iff]
    constructor
    · exact div_nonneg (by nlinarith [hu1]) (by norm_num)
    · rw [div_lt_one (by norm_num : (0 : ℝ) < 3 / 2)]
      nlinarith [huub]
  have hfll0 : ⌊filterHz 2 6 hzToLog logToHz 0 / ((6 : ℝ) / ((4 : ℕ) : ℝ))⌋ = 0 := by
    rw [hzl0, hscale, Int.floor_eq_zero_iff]
    constructor
    · norm_num
    · norm_num
  have hfll1 : ⌊filterHz 2 6 hzToLog logToHz 1 / ((6 : ℝ) / ((4 : ℕ) : ℝ))⌋ = 1 := by
    rw [hzl1, hscale, Int.floor_eq_iff]
    constructor
    · push_cast
      rw [le_div_iff₀ (by norm_num : (0 : ℝ) < 3 / 2)]
      linarith
    · push_cast
      rw [div_lt_iff₀ (by norm_num : (0 : ℝ) < 3 / 2)]
      linarith
  -- the four row totals over the two columns apply reads
  have hmelrow0 : createFilterBank 2 4 6 hzToMel melToHz 0 0 +
      createFilterBank 2 4 6 hzToMel melToHz 0 1 = 1 := by
    simp only [createFilterBank, hflm0]
    norm_num
  have hmelrow1 : createFilterBank 2 4 6 hzToMel melToHz 1 0 +
      createFilterBank 2 4 6 hzToMel melToHz 1 1 = 1 := by
    simp only [createFilterBank, hflm1]
    norm_num
  have hlogrow0 : createFilterBank 2 4 6 hzToLog logToHz 0 0 +
      createFilterBank 2 4 6 hzToLog logToHz 0 1 = 1 := by
    simp only [createFilterBank, hfll0]
    norm_num
  have hlogrow1 : createFilterBank 2 4 6 hzToLog logToHz 1 0 +
      createFilterBank 2 4 6 hzToLog logToHz 1 1 < 1 := by
    simp only [createFilterBank, hfll1]
    norm_num
    rw [hzl1]
    exact hvlb
  -- the totals
  have hcfbM : createFilterBankForScale "mel" 2 4 6 =
      some (createFilterBank 2 4 6 hzToMel melToHz) := rfl
  have hcfbL : createFilterBankForScale "logarithmic" 2 4 6 =
      some (createFilterBank 2 4 6 hzToLog logToHz) := rfl
  have hmel : onesTotal "mel" 2 4 6 = 2 := by
    rw [onesTotal, hcfbM]
    show (∑ i ∈ Finset.range 2, appliedRowSum (createFilterBank 2 4 6 hzToMel melToHz) 4 i) = 2
    rw [Finset.sum_range_succ, Finset.sum_range_succ, Finset.sum_range_zero,
      appliedRowSum_four, appliedRowSum_four]
    linarith [hmelrow0, hmelrow1]
  have hlog : onesTotal "logarithmic" 2 4 6 < 2 := by
    rw [onesTotal, hcfbL]
    show (∑ i ∈ Finset.range 2, appliedRowSum (createFilterBank 2 4 6 hzToLog logToHz) 4 i) < 2
    rw [Finset.sum_range_succ, Finset.sum_range_succ, Finset.sum_range_zero,
      appliedRowSum_four, appliedRowSum_four]
    linarith [hlogrow0, hlogrow1]
  rw [hmel]
  exact ne_of_lt hlog

/-- Helper: `getD` on a constant list returns that constant at any index. -/
theorem getD_of_all_eq {α : Type _} (l : List α) (d : α) :
    ∀ i : ℕ, (∀ x ∈ l, x = d) → l.getD i d = d := by
  induction l with
  | nil => intro i _; rfl
  | cons x xs ih =>
    intro i hl
    cases i with
    | zero => simpa using hl x (List.mem_cons_self x xs)
    | succ j => simpa using ih j fun y hy => hl y (List.mem_cons_of_mem x hy)

/-- Helper: one butterfly on all-zero arrays leaves them all-zero. -/
theorem butterflyAt_zero (h : ℕ) (c : ℝ × ℝ) (i : ℕ) :
    butterflyAt h c (fun _ => (0 : ℝ), fun _ => (0 : ℝ)) i =
      (fun _ => (0 : ℝ), fun _ => (0 : ℝ)) := by
  simp only [butterflyAt]
  refine Prod.ext ?_ ?_ <;> funext j <;> simp

/-- Helper: a whole butterfly sweep preserves all-zero arrays. -/
theorem butterflySweep_zero (n h : ℕ) (c : ℝ × ℝ) (fftStep : ℕ) :
    butterflySweep n h c fftStep (fun _ => (0 : ℝ), fun _ => (0 : ℝ)) =
      (fun _ => (0 : ℝ), fun _ => (0 : ℝ)) := by
  rw [butterflySweep]
  generalize natStride n (2 * h) fftStep = l
  induction l with
  | nil => rfl
  | cons x xs ih => rw [List.foldl_cons, butterflyAt_zero, ih]

/-- Helper: one FFT stage preserves all-zero arrays (for any phase step). -/
theorem fftStage_zero (n h : ℕ) (ps : ℝ × ℝ) :
    fftStage n h ps (fun _ => (0 : ℝ), fun _ => (0 : ℝ)) =
      (fun _ => (0 : ℝ), fun _ => (0 : ℝ)) := by
  rw [fftStage]
  have hgen : ∀ (l : List ℕ) (p : ℝ × ℝ),
      ((l.foldl
        (fun (acc : (ℝ × ℝ) × ((ℕ → ℝ) × (ℕ → ℝ))) fftStep =>
          ((acc.1.1 * ps.1 - acc.1.2 * ps.2, acc.1.1 * ps.2 + acc.1.2 * ps.1),
            butterflySweep n h acc.1 fftStep acc.2))
        (p, (fun _ => (0 : ℝ), fun _ => (0 : ℝ)))).2) =
        (fun _ => (0 : ℝ), fun _ => (0 : ℝ)) := by
    intro l
    induction l with
    | nil => intro p; rfl
    | cons x xs ih =>
      intro p
      rw [List.foldl_cons, butterflySweep_zero]
      exact ih _
  exact hgen _ _

/-- Helper: all FFT stages preserve all-zero arrays. -/
theorem fftStages_zero (n : ℕ) (sinT cosT : ℕ → ℝ) :
    fftStages n sinT cosT (fun _ => (0 : ℝ), fun _ => (0 : ℝ)) =
      (fun _ => (0 : ℝ), fun _ => (0 : ℝ)) := by
  rw [fftStages]
  generalize (List.range (Nat.clog 2 n)).map (2 ^ ·) = l
  induction l with
  | nil => rfl
  | cons x xs ih => rw [List.foldl_cons, fftStage_zero, ih]

/-- Helper: `calculateSpectrum` on an all-zero frame (of the right,
power-of-two length) succeeds and returns the all-zero spectrum, preserving
the configured size. -/
theorem calculateSpectrum_zero (st : FFTState) (buffer : List ℝ)
    (hpow : 2 ^ Nat.log2 st.bufferSize = st.bufferSize)
    (hlen : st.bufferSize = buffer.length)
    (hz : ∀ x ∈ buffer, x = 0) :
    ∃ st2, calculateSpectrum st buffer = .ok (st2, fun _ => (0 : ℝ)) ∧
      st2.bufferSize = st.bufferSize := by
  have hre0 : (fun i => buffer.getD (st.reverseTable i) 0 *
      st.windowValues (st.reverseTable i)) = fun _ => (0 : ℝ) := by
    funext i
    rw [getD_of_all_eq buffer 0 (st.reverseTable i) hz, zero_mul]
  simp only [calculateSpectrum]
  rw [if_neg (not_not_intro hpow), if_neg (not_not_intro hlen), hre0, fftStages_zero]
  exact ⟨_, congrArg Except.ok (Prod.ext rfl (funext fun i => by simp)), rfl⟩

/-- Helper: applying any filter bank to the all-zero spectrum yields zero. -/
theorem applyFilterBank_zero (len : ℕ) (bank : ℕ → ℕ → ℝ) :
    applyFilterBank (fun _ => (0 : ℝ)) len bank = fun _ => (0 : ℝ) := by
  funext i
  simp [applyFilterBank]

/-- Helper: `log10(1e-12) = -12`. -/
theorem logb_floor_clamp : Real.logb 10 (1e-12 : ℝ) = -12 := by
  rw [show (1e-12 : ℝ) = ((10 : ℝ) ^ (12 : ℕ))⁻¹ by norm_num, Real.logb_inv,
    Real.logb_pow, Real.logb_self_eq_one (by norm_num)]
  norm_num

/-- Helper: a zero magnitude quantizes to intensity 0 at `gainDB = 20`,
`rangeDB = 80` (the clamp floor maps to `-240 dB`, below `-100`). -/
theorem toIntensity_zero : toIntensity 0 20 80 = 0 := by
  simp only [toIntensity]
  rw [show (if (0 : ℝ) > 1e-12 then (0 : ℝ) else 1e-12) = 1e-12 from if_neg (by norm_num),
    logb_floor_clamp]
  norm_num

/-- Helper: on an all-zero channel the frame loop succeeds and every produced
intensity byte is 0 (at `gainDB = 20`, `rangeDB = 80`). -/
theorem processFrames_zero (n : ℕ) (hn : 2 ^ Nat.log2 n = n)
    (fb : Option (ℕ → ℕ → ℝ)) (numFilters : ℕ) (frames : List ℝ) :
    ∀ st : FFTState, st.bufferSize = n →
      ∃ st2 cols,
        processFrames (fun _ => (0 : ℝ)) n fb numFilters 20 80 st frames = .ok (st2, cols) ∧
          st2.bufferSize = n ∧ ∀ col ∈ cols, ∀ b ∈ col, b = 0 := by
  have hmap0 : ∀ (k : ℕ) (b : ℕ), b ∈ (List.range k).map (fun _ => (0 : ℕ)) → b = 0 := by
    intro k b hb
    rcases List.mem_map.mp hb with ⟨j, _, rfl⟩
    rfl
  have hstep : ∀ (st : FFTState) (s : ℝ), st.bufferSize = n →
      ∃ st1, calculateSpectrum st (segmentOf (fun _ => (0 : ℝ)) s n) =
        .ok (st1, fun _ => (0 : ℝ)) ∧ st1.bufferSize = n := by
    intro st s hst
    have hseg : ∀ x ∈ segmentOf (fun _ => (0 : ℝ)) s n, x = 0 := by
      intro x hx
      rcases List.mem_map.mp hx with ⟨k, _, rfl⟩
      rfl
    have hlen : st.bufferSize = (segmentOf (fun _ => (0 : ℝ)) s n).length := by
      rw [hst, segmentOf, List.length_map, List.length_range]
    obtain ⟨st1, hcs, hbs1⟩ :=
      calculateSpectrum_zero st _ (by rw [hst]; exact hn) hlen hseg
    exact ⟨st1, hcs, by rw [hbs1, hst]⟩
  cases fb with
  | none =>
    induction frames with
    | nil =>
      intro st hst
      exact ⟨st, [], rfl, hst, by simp⟩
    | cons s rest ih =>
      intro st hst
      obtain ⟨st1, hcs, hbs1⟩ := hstep st s hst
      obtain ⟨st2, cols, hpf, hbs2, hall⟩ := ih st1 hbs1
      refine ⟨st2, ((List.range (n / 2)).map fun _ => (0 : ℕ)) :: cols, ?_, hbs2, ?_⟩
      · simp only [processFrames, hcs, hpf, toIntensity_zero]
      · intro col hcol b hb
        rcases List.mem_cons.mp hcol with hcol | hcol
        · subst hcol
          exact hmap0 _ b hb
        · exact hall col hcol b hb
  | some bank =>
    induction frames with
    | nil =>
      intro st hst
      exact ⟨st, [], rfl, hst, by simp⟩
    | cons s rest ih =>
      intro st hst
      obtain ⟨st1, hcs, hbs1⟩ := hstep st s hst
      obtain ⟨st2, cols, hpf, hbs2, hall⟩ := ih st1 hbs1
      refine ⟨st2, ((List.range numFilters).map fun _ => (0 : ℕ)) :: cols, ?_, hbs2, ?_⟩
      · simp only [processFrames, hcs, hpf, applyFilterBank_zero, toIntensity_zero]
      · intro col hcol b hb
        rcases List.mem_cons.mp hcol with hcol | hcol
        · subst hcol
          exact hmap0 _ b hb
        · exact hall col hcol b hb

/-- Helper: the channel loop over all-zero channels succeeds with an all-zero
byte matrix. -/
theorem processChannels_zero (n : ℕ) (hn : 2 ^ Nat.log2 n = n)
    (audioChannels : List (ℕ → ℝ)) (hch : ∀ ch ∈ audioChannels, ch = fun _ => (0 : ℝ))
    (fb : Option (ℕ → ℕ → ℝ)) (numFilters : ℕ) (frames : List ℝ) :
    ∀ (cs : List ℕ) (st : FFTState), st.bufferSize = n →
      ∃ st2 out,
        processChannels audioChannels n fb numFilters 20 80 frames st cs = .ok (st2, out) ∧
          st2.bufferSize = n ∧ ∀ chf ∈ out, ∀ col ∈ chf, ∀ b ∈ col, b = 0 := by
  intro cs
  induction cs with
  | nil =>
    intro st hst
    exact ⟨st, [], rfl, hst, by simp⟩
  | cons c cs ih =>
    intro st hst
    have hgd : audioChannels.getD c (fun _ => (0 : ℝ)) = fun _ => (0 : ℝ) :=
      getD_of_all_eq audioChannels _ c hch
    obtain ⟨st1, cols, hpf, hbs1, hall1⟩ := processFrames_zero n hn fb numFilters frames st hst
    obtain ⟨st2, out, hpc, hbs2, hall2⟩ := ih st1 hbs1
    refine ⟨st2, cols :: out, ?_, hbs2, ?_⟩
    · simp only [processChannels, hgd, hpf, hpc]
    · intro chf hchf col hcol b hb
      rcases List.mem_cons.mp hchf with h | h
      · subst h
        exact hall1 col hcol b hb
      · exact hall2 chf h col hcol b hb

/-- Helper: a successfully constructed engine carries the requested size. -/
theorem FFT.make_bufferSize {n : ℕ} {sr : ℝ} {w : Option String} {a : Option ℝ}
    {st : FFTState} (hmk : FFT.make n sr w a = .ok st) : st.bufferSize = n := by
  rw [FFT.make] at hmk
  cases hwt : windowTable w a n with
  | error e =>
    rw [hwt] at hmk
    simp at hmk
  | ok win =>
    rw [hwt] at hmk
    simp only [Except.ok.injEq] at hmk
    rw [← hmk]

/-- Helper: the full worker pipeline on all-zero channels succeeds and every
intensity byte of the resulting matrix is 0 (whenever the engine constructs,
the size is a power of two, and `gainDB = 20`, `rangeDB = 80`). -/
theorem calculateFrequencies_zero (audioChannels : List (ℕ → ℝ)) (o : FreqOptions)
    (hch : ∀ ch ∈ audioChannels, ch = fun _ => (0 : ℝ))
    (hpow : 2 ^ Nat.log2 o.fftSamples = o.fftSamples)
    (hg : o.gainDB = 20) (hr : o.rangeDB = 80)
    (hmkok : (FFT.make o.fftSamples o.sampleRate o.windowFunc o.alpha).isOk = true) :
    ∃ m, calculateFrequencies audioChannels o = .ok m ∧
      ∀ chf ∈ m, ∀ col ∈ chf, ∀ b ∈ col, b = 0 := by
  cases hmk : FFT.make o.fftSamples o.sampleRate o.windowFunc o.alpha with
  | error e =>
    rw [hmk] at hmkok
    simp [Except.isOk, Except.toBool] at hmkok
  | ok st0 =>
    obtain ⟨st2, out, hpc, _, hall⟩ := processChannels_zero o.fftSamples hpow
      audioChannels hch
      (createFilterBankForScale o.scale (o.fftSamples / 2) o.fftSamples o.sampleRate)
      (o.fftSamples / 2)
      (frameStarts ((⌊o.startTime * o.sampleRate⌋ : ℤ) : ℝ)
        ((⌊o.endTime * o.sampleRate⌋ : ℤ) : ℝ) (o.fftSamples : ℝ)
        (workerHopSize o.noverlap (o.fftSamples : ℝ)))
      (List.range (if o.splitChannels then audioChannels.length else 1)) st0
      (FFT.make_bufferSize hmk)
    refine ⟨out, ?_, hall⟩
    simp only [calculateFrequencies, hmk, hg, hr, hpc]

/-- Helper: `1024` is a power of two in the code's `2^floor(log2 n)` sense.
(Stated at the literal to keep the kernel away from `Nat.log2`'s
well-founded recursion.) -/
theorem pow_log2_1024 : 2 ^ Nat.log2 1024 = 1024 := by simp [Nat.log2]

/-- Claim C9 (confirmed): with `sampleRate = 44100`, `fftSize = 1024`,
`windowFunction = hann`, `scale = mel`, `gainDB = 20`, `rangeDB = 80`, the
full worker pipeline over a 2-second two-channel all-zero input produces a
frequency matrix in which every intensity byte equals 0. -/
theorem silence_pipeline_all_zero :
    (calculateFrequencies [fun _ => (0 : ℝ), fun _ => (0 : ℝ)] silenceOptions).map
      (fun m => m.all fun chf => chf.all fun col => col.all fun b => b == 0) = .ok true := by
  obtain ⟨m, hres, hall⟩ :=
    calculateFrequencies_zero [fun _ => (0 : ℝ), fun _ => (0 : ℝ)] silenceOptions
      (by
        intro ch hch
        rcases List.mem_cons.mp hch with h | h
        · exact h
        · rcases List.mem_cons.mp h with h2 | h2
          · exact h2
          · exact absurd h2 (List.not_mem_nil ch))
      (by rw [show silenceOptions.fftSamples = 1024 from rfl]; exact pow_log2_1024)
      rfl rfl rfl
  rw [hres]
  simp only [Except.map]
  have hpred : (m.all fun chf => chf.all fun col => col.all fun b => b == 0) = true := by
    simp only [List.all_eq_true, beq_iff_eq]
    exact hall
  rw [hpred]

/-- Claim C10 (confirmed): resampling a channel matrix to a target width of 0
returns the input matrix itself completely unchanged — `targetWidth === 0`
takes the same fast path as `targetWidth === oldColumns`. -/
theorem resampleChannel_zero_width (oldMatrix : List (List ℚ)) (performanceMode : Bool) :
    resampleChannel oldMatrix 0 performanceMode = oldMatrix := by
  simp [resampleChannel]

/-- Claim C3, counterexample: an explicit requested overlap of `0` does not
yield an actual overlap of `0` (as the claim states) — the JavaScript `||`
treats `0` as unset, so `fftSize = 512` produces the default overlap `256`. -/
theorem actualOverlap_explicit_zero :
    actualOverlap (some 0) 512 = 256 ∧ (256 : ℝ) ≠ 0 := by
  constructor
  · have h : ((512 : ℝ) * 0.5) = 256 := by norm_num
    simp [actualOverlap, orDefault, h]
  · norm_num

/-- Claim C3, amended: the actual overlap equals `min(noverlap, fftSize*0.5)`
when `noverlap` is supplied and nonzero (upper clamp only — no clamp at 0),
and equals `min(max(0, round(fftSize*0.5)), fftSize*0.5)` when `noverlap` is
unset; an explicit `noverlap` of `0` behaves exactly like unset. -/
theorem actualOverlap_spec (v fftSamples : ℝ) (hv : v ≠ 0) :
    actualOverlap (some v) fftSamples = min v (fftSamples * 0.5) ∧
    actualOverlap none fftSamples =
      min (max 0 ((round (fftSamples * 0.5) : ℤ) : ℝ)) (fftSamples * 0.5) ∧
    actualOverlap (some 0) fftSamples = actualOverlap none fftSamples := by
  refine ⟨?_, rfl, ?_⟩
  · simp [actualOverlap, orDefault, hv]
  · simp [actualOverlap, orDefault]

/-- Witness for `actualOverlap_spec` at `noverlap = 100`, `fftSize = 512`. -/
theorem actualOverlap_spec_witness :
    actualOverlap (some 100) 512 = min 100 ((512 : ℝ) * 0.5) ∧
    actualOverlap none 512 =
      min (max 0 ((round ((512 : ℝ) * 0.5) : ℤ) : ℝ)) ((512 : ℝ) * 0.5) ∧
    actualOverlap (some 0) 512 = actualOverlap none 512 :=
  actualOverlap_spec 100 512 (by norm_num)

/-- Claim C4, counterexample: with `startSample = 0`, `endSample = 768`,
`fftSize = 512`, `hopSize = 256` the loop produces one frame (`768 = 0 + 512 + 256`
fails the strict bound), while the claimed formula
`floor((endSample - startSample - fftSize)/hopSize) + 1` gives two. -/
theorem frameStarts_count_claim_fails :
    (frameStarts 0 768 512 256).length = 1 ∧
    ((⌊((768 : ℝ) - 0 - 512) / 256⌋ + 1).toNat ≠ (frameStarts 0 768 512 256).length) := by
  have hlen : (frameStarts 0 768 512 256).length = 1 := by
    rw [frameStarts, strideIndices_length _ _ _ (by norm_num), if_pos (by norm_num)]
    have h1 : ⌈((768 : ℝ) - 512 - 0) / 256⌉ = 1 := by
      rw [Int.ceil_eq_iff]
      norm_num
    rw [h1]
    rfl
  refine ⟨hlen, ?_⟩
  rw [hlen]
  have h2 : ⌊((768 : ℝ) - 0 - 512) / 256⌋ = 1 := by
    rw [Int.floor_eq_iff]
    norm_num
  rw [h2]
  decide

/-- Claim C4, amended: the frame enumeration (start at `startSample`, step
`hopSize`, frame must satisfy `s + fftSize < endSample` strictly) produces
exactly `ceil((endSample - startSample - fftSize)/hopSize)` frames when
`startSample + fftSize < endSample` (always at least one), and zero frames
otherwise — a ceiling, not the claimed `floor(...) + 1`, which overcounts by
one exactly when `hopSize` divides `endSample - startSample - fftSize`. -/
theorem frameStarts_count (startSample endSample fftSamples hopSize : ℝ)
    (hstep : 0 < hopSize) :
    (frameStarts startSample endSample fftSamples hopSize).length =
      if startSample + fftSamples < endSample
      then (⌈(endSample - startSample - fftSamples) / hopSize⌉).toNat else 0 := by
  rw [frameStarts, strideIndices_length _ _ _ hstep,
    show endSample - fftSamples - startSample = endSample - startSample - fftSamples
    from by ring]
  by_cases hc : startSample + fftSamples < endSample
  · rw [if_pos (by linarith), if_pos hc]
  · rw [if_neg (fun hh => hc (by linarith)), if_neg hc]

/-- Witness for `frameStarts_count`: range `[0, 1000)`, `fftSize = 512`,
`hopSize = 256` gives `ceil(488/256) = 2` frames. -/
theorem frameStarts_count_witness :
    (0 : ℝ) < 256 ∧ (frameStarts 0 1000 512 256).length = 2 := by
  refine ⟨by norm_num, ?_⟩
  rw [frameStarts_count 0 1000 512 256 (by norm_num), if_pos (by norm_num)]
  have h1 : ⌈((1000 : ℝ) - 0 - 512) / 256⌉ = 2 := by
    rw [Int.ceil_eq_iff]
    norm_num
  rw [h1]
  rfl

/-- Claim C5, counterexample: the main-thread enumeration path
(`getFrequencies`, stride `fftSamples - noverlap` with no clamping) violates
the claimed lower bound: `noverlap = 448` with `fftSize = 512` strides by
`64 < max(64, 512*0.25) = 128`. -/
theorem mainHopSize_below_min :
    mainHopSize (some 448) 512 88200 980 = 64 ∧
    ¬ (max 64 ((512 : ℝ) * 0.25) ≤ 64) := by
  constructor
  · simp [mainHopSize, mainNoverlap, orDefault]
    norm_num
  · simp [max_le_iff]
    norm_num

/-- Claim C5, amended: on the worker paths the hop size always satisfies the
lower bound `max(64, fftSize*0.25)`, and it is at most `fftSize` provided
`fftSize ≥ 64` and the requested overlap is not negative; the main-thread
path has no such guarantee. -/
theorem workerHopSize_bounds (noverlap : Option ℝ) (fftSamples : ℝ)
    (hfft : 64 ≤ fftSamples) (hnov : ∀ v, noverlap = some v → 0 ≤ v) :
    max 64 (fftSamples * 0.25) ≤ workerHopSize noverlap fftSamples ∧
    workerHopSize noverlap fftSamples ≤ fftSamples := by
  constructor
  · exact le_max_left _ _
  · have hov : 0 ≤ actualOverlap noverlap fftSamples := by
      rw [actualOverlap]
      refine le_min ?_ (by linarith)
      rcases noverlap with _ | v
      · simp [orDefault]
      · rw [orDefault]
        by_cases hv : v = 0
        · simp [hv]
        · simp [hv]
          exact hnov v rfl
    rw [workerHopSize]
    refine max_le (max_le (by linarith) (by linarith)) (by linarith)

/-- Witness for `workerHopSize_bounds` at `noverlap = 100`, `fftSize = 512`. -/
theorem workerHopSize_bounds_witness :
    (64 : ℝ) ≤ 512 ∧
    max 64 ((512 : ℝ) * 0.25) ≤ workerHopSize (some 100) 512 ∧
    workerHopSize (some 100) 512 ≤ 512 := by
  refine ⟨by norm_num, ?_, ?_⟩
  · exact (workerHopSize_bounds (some 100) 512 (by norm_num)
      (fun v hv => by cases hv; norm_num)).1
  · exact (workerHopSize_bounds (some 100) 512 (by norm_num)
      (fun v hv => by cases hv; norm_num)).2

end Wavesurfer
